import Mathlib

set_option maxRecDepth 20000

/-!
Verification development for the lwan core: the stackful coroutine runtime
(source file: coroutine runtime, provided unnamed) and the HTTP response
framing layer (src/lib/lwan-response.c).

The C code is shallowly embedded: byte buffers are lists of characters,
the header writer logs every byte it stores (the byte stored at pointer
offset i is element i of the log), machine integers are Nat, C NULL
pointers are Option.none, and undefined behaviour (null dereference,
out-of-bounds read) is an explicit result constructor or Option.none.
External collaborators (status-code table, date strings, template engine,
socket send primitives) are parameters, as the spec declares them
out of scope.
-/

/-! ## Coroutine runtime: deferred actions

Source: coro_deferred_run / coro_deferred_get_generation / coro_free /
coro_reset.  The deferred array is represented by the list of its
elements; an action is an opaque value of type a.  coro_deferred_run
executes, for i from elements down to generation + 1, the action at
index i - 1, then sets elements to generation.  The pair returned below
is (the trace of executed actions in execution order, the remaining
deferred sequence). -/

/-- Loop of coro_deferred_run: for (i = elements; i != generation; i--)
run defers[i-1].  Mirrors the source; the source loop index is a size_t
that the caller keeps at or above generation. -/
def coro_deferred_run_loop [Inhabited a] (defers : List a) : Nat → Nat → List a
  | 0, _ => []
  | i + 1, g => if i + 1 = g then [] else defers.getD i default :: coro_deferred_run_loop defers i g

/-- coro_deferred_run coro generation: runs the registered actions from the
last down to index generation, then sets the element count to generation
(the backing storage is untouched, so the remaining sequence is the first
generation entries). -/
def coro_deferred_run [Inhabited a] (defers : List a) (generation : Nat) : List a × List a :=
  (coro_deferred_run_loop defers defers.length generation, defers.take generation)

/-- coro_deferred_get_generation returns array->elements. -/
def coro_deferred_get_generation (defers : List a) : Nat :=
  defers.length

lemma coro_deferred_run_loop_self [Inhabited a] (defers : List a) (g : Nat) :
    coro_deferred_run_loop defers g g = [] := by
  cases g with
  | zero => rfl
  | succ i => simp [coro_deferred_run_loop]

lemma coro_deferred_run_loop_extend [Inhabited a] (L : List a) (p : a) :
    ∀ i g, i ≤ L.length →
      coro_deferred_run_loop (L ++ [p]) i g = coro_deferred_run_loop L i g := by
  intro i
  induction i with
  | zero => intro g _; rfl
  | succ i ih =>
      intro g hi
      by_cases hg : i + 1 = g
      · simp [coro_deferred_run_loop, hg]
      · have hlt : i < L.length := by omega
        have hget : (L ++ [p]).getD i default = L.getD i default := by
          rw [List.getD_eq_getElem?_getD, List.getD_eq_getElem?_getD,
            List.getElem?_append_left hlt]
        rw [coro_deferred_run_loop, coro_deferred_run_loop, if_neg hg, if_neg hg,
          hget, ih g (by omega)]

lemma coro_deferred_run_loop_append [Inhabited a] (pre post : List a) :
    coro_deferred_run_loop (pre ++ post) (pre.length + post.length) pre.length
      = post.reverse := by
  induction post using List.reverseRecOn with
  | nil => simpa using coro_deferred_run_loop_self (a := a) pre pre.length
  | append_singleton post p ih =>
      have hassoc : pre ++ (post ++ [p]) = (pre ++ post) ++ [p] := by simp
      have hlen : pre.length + (post ++ [p]).length = (pre.length + post.length) + 1 := by
        simp [List.length_append]; omega
      have hne : ¬ (pre.length + post.length + 1 = pre.length) := by omega
      have hget : ((pre ++ post) ++ [p]).getD (pre.length + post.length) default = p := by
        have h2 : pre.length + post.length = (pre ++ post).length := by simp
        rw [List.getD_eq_getElem?_getD, h2, List.getElem?_append_right (le_refl _)]
        simp
      rw [hassoc, hlen, coro_deferred_run_loop, if_neg hne, hget,
        coro_deferred_run_loop_extend (pre ++ post) p _ _ (by simp),
        ih]
      simp

/-- Claim C2: running coro_deferred_run at the generation captured when the
deferred sequence was pre, after the further registrations post, executes
exactly the actions in post, last registered first (LIFO), and leaves the
deferred sequence equal to pre (element count = generation).  coro_free and
coro_reset invoke this with generation 0 (pre = []), giving the full LIFO
unwind. -/
theorem coro_deferred_run_lifo_rollback [Inhabited a] (pre post : List a) :
    coro_deferred_run (pre ++ post) (coro_deferred_get_generation pre)
      = (post.reverse, pre) := by
  unfold coro_deferred_run coro_deferred_get_generation
  refine Prod.ext ?_ ?_
  · simpa [List.length_append] using coro_deferred_run_loop_append pre post
  · simp [List.take_left]

theorem coro_deferred_run_lifo_rollback_witness :
    coro_deferred_run ([10, 20] ++ [30, 40, 50]) (coro_deferred_get_generation [10, 20])
      = ([50, 40, 30], [10, 20]) :=
  coro_deferred_run_lifo_rollback [10, 20] [30, 40, 50]

/-! ## Coroutine runtime: resume / yield value protocol

Source: coro_resume, coro_resume_value, coro_yield and the x86-64
coro_entry_point trampoline.  The register-level context switch is
embedded by its observable protocol: a handler is represented by the tree
of its remaining behaviour (HandlerProg).  A yld w k node is a call
coro_yield(coro, w): the source stores w into coro->yield_value and
switches to the caller; when the coroutine is next switched in, the call
returns the current coro->yield_value, which the continuation k receives.
A ret v leaf is the handler returning v: the trampoline stores v into
coro->yield_value and sets coro->ended = true.  coro_resume switches in,
runs up to the next yield or the end, and returns coro->yield_value;
coro_resume_value stores its argument into coro->yield_value first. -/

/-- Remaining behaviour of a coroutine handler: it either returns an int,
or yields an int and continues with the value observed by that yield. -/
inductive HandlerProg where
  | ret (v : Int)
  | yld (w : Int) (k : Int → HandlerProg)

/-- Where a resume will continue: a fresh coroutine starts its handler
(the entry-point trampoline calls func(coro, data), which ignores
yield_value); a suspended one continues the in-flight yield, whose result
is the current yield_value; an ended one must not be resumed. -/
inductive ResumePoint where
  | fresh (prog : HandlerProg)
  | suspended (k : Int → HandlerProg)
  | ended

/-- The observable coroutine state: the shared yield_value slot and the
saved continuation (struct coro's context / ended fields). -/
structure Coro where
  yield_value : Int
  rp : ResumePoint

/-- Runs the coroutine from prog until its next suspension point, updating
yield_value and the saved context exactly as coro_yield and the
coro_entry_point trampoline do. -/
def coro_run_to_suspension (prog : HandlerProg) (c : Coro) : Coro :=
  match prog with
  | .ret v => { c with yield_value := v, rp := .ended }
  | .yld w k => { c with yield_value := w, rp := .suspended k }

/-- coro_resume: asserts the coroutine has not ended (none models the
violated assertion), switches into it until it yields or ends, then
returns coro->yield_value together with the post-state. -/
def coro_resume (c : Coro) : Option (Int × Coro) :=
  match c.rp with
  | .ended => none
  | .fresh prog => some ((coro_run_to_suspension prog c).yield_value, coro_run_to_suspension prog c)
  | .suspended k =>
      some ((coro_run_to_suspension (k c.yield_value) c).yield_value,
        coro_run_to_suspension (k c.yield_value) c)

/-- coro_resume_value: stores v into coro->yield_value (so the in-flight
yield observes v), then resumes. -/
def coro_resume_value (c : Coro) (v : Int) : Option (Int × Coro) :=
  coro_resume { c with yield_value := v }

/-- Claim C4: for a suspended coroutine, coro_resume_value coro v makes the
in-flight yield observe v (the continuation k is applied to v), and
coro_resume_value returns the value w passed to the next coro_yield inside
the handler, or the handler's return value if the handler ends instead;
values are transmitted in both directions with no loss. -/
theorem coro_resume_value_yield_duality (c : Coro) (k : Int → HandlerProg) (v : Int)
    (hs : c.rp = .suspended k) :
    (∀ w k', k v = .yld w k' →
        coro_resume_value c v = some (w, { yield_value := w, rp := .suspended k' })) ∧
    (∀ r, k v = .ret r →
        coro_resume_value c v = some (r, { yield_value := r, rp := .ended })) := by
  constructor
  · intro w k' hk
    simp [coro_resume_value, coro_resume, hs, hk, coro_run_to_suspension]
  · intro r hk
    simp [coro_resume_value, coro_resume, hs, hk, coro_run_to_suspension]

theorem coro_resume_value_yield_duality_witness :
    coro_resume_value ⟨0, .suspended (fun x => .yld (x + 1) (fun _ => .ret 7))⟩ 5
      = some (6, { yield_value := 6, rp := .suspended (fun _ => .ret 7) }) :=
  (coro_resume_value_yield_duality ⟨0, .suspended (fun x => .yld (x + 1) (fun _ => .ret 7))⟩
    (fun x => .yld (x + 1) (fun _ => .ret 7)) 5 rfl).1 6 (fun _ => .ret 7) rfl

/-! ## Coroutine runtime: scratch allocation helpers

Source: coro_defer, coro_malloc_full, coro_malloc, coro_strndup,
coro_strdup.  Readable memory starting at a char pointer is a list of
characters; an allocation is named by an opaque Nat; coro_malloc, on
success, registers a deferred free of the allocation (the failure path
returns NULL and registers nothing; the claims concern the success path,
so the model takes the fresh allocation as given). -/

/-- The NUL byte. -/
def NUL : Char := '\x00'

/-- coro_defer coro free ptr: appends one deferred action. -/
def coro_defer (defers : List Nat) (ptr : Nat) : List Nat :=
  defers ++ [ptr]

/-- coro_malloc (success path): the new allocation's free is deferred. -/
def coro_malloc (defers : List Nat) (ptr : Nat) : List Nat :=
  coro_defer defers ptr

/-- coro_strndup coro str max_len: computes len = max_len + 1, allocates
len bytes, copies len bytes from str (an out-of-bounds read — none — when
fewer than max_len + 1 bytes are readable at str), then stores NUL at
index len - 1.  Returns the new deferred list and the duplicate's bytes. -/
def coro_strndup (defers : List Nat) (ptr : Nat) (str : List Char) (max_len : Nat) :
    Option (List Nat × List Char) :=
  if str.length < max_len + 1 then none
  else some (coro_malloc defers ptr, (str.take (max_len + 1)).set max_len NUL)

/-- strlen: index of the first NUL among the readable bytes; none when
there is no terminator (the source would read out of bounds). -/
def cstrlen : List Char → Option Nat
  | [] => none
  | c :: cs => if c = NUL then some 0 else (cstrlen cs).map (· + 1)

/-- coro_strdup coro str = coro_strndup coro str (strlen str). -/
def coro_strdup (defers : List Nat) (ptr : Nat) (str : List Char) :
    Option (List Nat × List Char) :=
  match cstrlen str with
  | none => none
  | some n => coro_strndup defers ptr str n

lemma cstrlen_append_of_not_mem (s rest : List Char) (h : NUL ∉ s) :
    cstrlen (s ++ NUL :: rest) = some s.length := by
  induction s with
  | nil => simp [cstrlen]
  | cons c cs ih =>
      have hc : ¬ (c = NUL) := fun hcn => h (by simp [hcn])
      have hcs : NUL ∉ cs := fun hm => h (List.mem_cons_of_mem _ hm)
      simp [cstrlen, hc, ih hcs]

lemma take_succ_set_of_le (str : List Char) (n : Nat) (h : n + 1 ≤ str.length) :
    (str.take (n + 1)).set n NUL = str.take n ++ [NUL] := by
  have htake : str.take (n + 1) = str.take n ++ str[n]?.toList := List.take_succ
  have hlt : n < str.length := by omega
  have hsome : str[n]? = some (str.get ⟨n, hlt⟩) := by
    simp [List.getElem?_eq_getElem hlt]
  rw [htake, hsome]
  have hlen : (str.take n).length = n := by simp; omega
  rw [List.set_append_right _ _ (by omega)]
  simp [hlen]

/-- Claim C10: coro_strndup coro s n copies exactly n + 1 bytes from s and
then overwrites index n with NUL, so it is memory-safe only when n + 1
bytes are readable at s; under that precondition the duplicate equals the
first n bytes of s followed by NUL and the duplicate's free is deferred on
the coroutine; and coro_strdup returns an exact copy of the C string at s
(its bytes up to and including the terminator). -/
theorem coro_strndup_spec :
    (∀ (d : List Nat) (p : Nat) (str : List Char) (n : Nat),
        str.length < n + 1 → coro_strndup d p str n = none) ∧
    (∀ (d : List Nat) (p : Nat) (str : List Char) (n : Nat),
        n + 1 ≤ str.length →
        coro_strndup d p str n = some (d ++ [p], str.take n ++ [NUL])) ∧
    (∀ (d : List Nat) (p : Nat) (s rest : List Char),
        NUL ∉ s →
        coro_strdup d p (s ++ NUL :: rest) = some (d ++ [p], s ++ [NUL])) := by
  refine ⟨?_, ?_, ?_⟩
  · intro d p str n h
    simp [coro_strndup, h]
  · intro d p str n h
    unfold coro_strndup
    rw [if_neg (by omega), take_succ_set_of_le str n h]
    rfl
  · intro d p s rest hmem
    have hred : coro_strdup d p (s ++ NUL :: rest)
        = coro_strndup d p (s ++ NUL :: rest) s.length := by
      unfold coro_strdup
      rw [cstrlen_append_of_not_mem s rest hmem]
    rw [hred]
    unfold coro_strndup
    rw [if_neg (by simp [List.length_append]),
      take_succ_set_of_le _ _ (by simp [List.length_append])]
    have htake : (s ++ NUL :: rest).take s.length = s := by
      simp
    rw [htake]
    rfl

theorem coro_strndup_spec_witness :
    coro_strndup [3] 9 ['a', 'b', 'c', 'd'] 2 = some ([3, 9], ['a', 'b', NUL]) :=
  coro_strndup_spec.2.1 [3] 9 ['a', 'b', 'c', 'd'] 2 (by decide)

/-! ## Response framer: data model

Source: src/lib/lwan-response.c.  A request carries the response flags
(REQUEST_IS_HTTP_1_0, RESPONSE_CHUNKED_ENCODING, RESPONSE_NO_CONTENT_LENGTH,
RESPONSE_SENT_HEADERS, REQUEST_ALLOW_CORS modelled as booleans, and the
connection's CONN_KEEP_ALIVE), the response fields (mime_type, buffer,
content_length, stream.callback, headers) and the request method.  The
stream callback is named by an opaque Nat resolved in the environment.
The environment carries the external collaborators: the status-code
table, the date-formatting helper's 29-byte strings live in the
connection's thread data, the template engine, and the buffer-size
constants DEFAULT_HEADERS_SIZE / DEFAULT_BUFFER_SIZE from lwan-private.h. -/

/-- struct lwan_key_value: one additional header entry. -/
structure KeyValue where
  key : List Char
  value : List Char
deriving DecidableEq

/-- Connection state used by the framer: CONN_KEEP_ALIVE and the
date-formatting collaborator's strings (conn->thread->date). -/
structure Conn where
  keepAlive : Bool
  dateDate : List Char
  dateExpires : List Char
deriving DecidableEq

/-- Request methods appearing in the has_response_body table. -/
inductive Method where
  | get | head | post | options | delete
deriving DecidableEq

/-- static const bool has_response_body[]: true for GET and POST. -/
def has_response_body : Method → Bool
  | .get => true
  | .post => true
  | _ => false

/-- struct lwan_request, restricted to the fields the framer reads. -/
structure LwanRequest where
  isHttp10 : Bool
  chunkedEncoding : Bool
  noContentLength : Bool
  sentHeaders : Bool
  allowCors : Bool
  method : Method
  conn : Conn
  responseMimeType : Option (List Char)
  responseContentLength : Nat
  responseBuffer : List Char
  responseHeaders : Option (List KeyValue)
  responseStreamCallback : Option Nat
deriving DecidableEq

/-- External collaborators (out of scope per the spec, passed by contract). -/
structure Env where
  statusAsStringWithCode : Nat → List Char
  statusAsString : Nat → List Char
  statusAsDescriptiveString : Nat → List Char
  errorTemplateRender : List Char → List Char → List Char
  streamCallbacks : Nat → LwanRequest → Nat × LwanRequest
  defaultHeadersSize : Nat
  defaultBufferSize : Nat

/-! ## Response framer: header assembly writer

lwan_prepare_response_header_full writes bytes through p_headers into a
buffer of headers_buf_size bytes.  The writer state is the list of bytes
stored so far: the byte stored at pointer offset i is element i, so a
store past the buffer is visible as an element at index at least
headers_buf_size.  RETURN_0_ON_OVERFLOW(len) is the test
p_headers + len >= p_headers_end, i.e. out.length + len is at least S.
APPEND_STRING_LEN copies len bytes with mempcpy after that test;
APPEND_CHAR_NOCHECK stores one byte with no test.  The overflow
constructor carries the bytes stored before the macro returned 0; crash
is a NULL dereference (strlen or iteration over a NULL header list). -/

/-- Result of a partial write sequence. -/
inductive Wr where
  | crash
  | overflow (out : List Char)
  | ok (out : List Char)
deriving DecidableEq

/-- Sequencing of write steps: overflow (the source's early return 0) and
crash abort the rest. -/
def Wr.bind : Wr → (List Char → Wr) → Wr
  | .crash, _ => .crash
  | .overflow o, _ => .overflow o
  | .ok o, f => f o

/-- APPEND_STRING_LEN(str, len): RETURN_0_ON_OVERFLOW(len), then mempcpy
of len bytes of str. -/
def appendStringLen (S : Nat) (s : List Char) (len : Nat) (out : List Char) : Wr :=
  if S ≤ out.length + len then .overflow out else .ok (out ++ s.take len)

/-- APPEND_STRING(str) and APPEND_CONSTANT(str): the full string.  (The
source computes the length with strlen or sizeof - 1; the embedded strings
carry their length.) -/
def appendString (S : Nat) (s : List Char) (out : List Char) : Wr :=
  appendStringLen S s s.length out

/-- uint_to_string from int-to-str.h (declared, not under src):
decimal representation of an unsigned integer. -/
def uint_to_string (v : Nat) : List Char :=
  Nat.toDigits 10 v

/-- APPEND_UINT(value): converts to decimal and appends; its two
identical RETURN_0_ON_OVERFLOW tests collapse into the one in
appendStringLen. -/
def appendUint (S : Nat) (v : Nat) (out : List Char) : Wr :=
  appendString S (uint_to_string v) out

/-- First stage of lwan_prepare_response_header_full: status line, framing
header, Content-Type and Connection, in source order.  Dereferencing a
NULL mime_type (strlen) is crash. -/
def prepareStage1 (env : Env) (req : LwanRequest) (status : Nat) (S : Nat) : Wr :=
  Wr.bind (appendString S ((if req.isHttp10 then "HTTP/1.0 " else "HTTP/1.1 ").toList) []) fun o =>
  Wr.bind (appendString S (env.statusAsStringWithCode status) o) fun o =>
  Wr.bind (if req.chunkedEncoding then
      appendString S "\r\nTransfer-Encoding: chunked".toList o
    else if req.noContentLength then .ok o
    else
      Wr.bind (appendString S "\r\nContent-Length: ".toList o) fun o2 =>
      appendUint S (if req.responseStreamCallback.isSome then req.responseContentLength
        else req.responseBuffer.length) o2) fun o =>
  Wr.bind (appendString S "\r\nContent-Type: ".toList o) fun o =>
  Wr.bind (match req.responseMimeType with
    | none => Wr.crash
    | some m => appendString S m o) fun o =>
  appendString S ((if req.conn.keepAlive then "\r\nConnection: keep-alive"
    else "\r\nConnection: close").toList) o

/-- Result of the additional-headers stage, carrying the
date_overridden / expires_overridden flags. -/
inductive UserRes where
  | crash
  | overflow (out : List Char)
  | ok (out : List Char) (dateOv : Bool) (expiresOv : Bool)
deriving DecidableEq

/-- Sequencing from a write step into the additional-headers stage. -/
def UserRes.bindW : Wr → (List Char → UserRes) → UserRes
  | .crash, _ => .crash
  | .overflow o, _ => .overflow o
  | .ok o, f => f o

/-- The additional-headers loop for status < 400: skips a Server key,
notes Date and Expires keys, then RETURN_0_ON_OVERFLOW(4), the unchecked
CR LF pair, the checked key, the unchecked colon and space pair, and the
checked value. -/
def userHeadersLoop (S : Nat) : List KeyValue → Bool → Bool → List Char → UserRes
  | [], dOv, eOv, out => .ok out dOv eOv
  | h :: hs, dOv, eOv, out =>
    if h.key = "Server".toList then userHeadersLoop S hs dOv eOv out
    else
      if S ≤ out.length + 4 then .overflow out
      else
        UserRes.bindW (appendString S h.key (out ++ ['\r', '\n'])) fun o =>
        UserRes.bindW (appendString S h.value (o ++ [':', ' '])) fun o2 =>
        userHeadersLoop S hs (dOv || decide (h.key = "Date".toList))
          (eOv || decide (h.key = "Expires".toList)) o2

/-- The status == 401 loop: scans for the first WWW-Authenticate key and
appends that one header, then breaks. -/
def wwwAuthLoop (S : Nat) : List KeyValue → List Char → Wr
  | [], out => .ok out
  | h :: hs, out =>
    if h.key = "WWW-Authenticate".toList then
      Wr.bind (appendString S "\r\nWWW-Authenticate: ".toList out) fun o =>
      appendString S h.value o
    else wwwAuthLoop S hs out

/-- The additional-headers stage: the status < 400 branch tests the list
for NULL, the status == 401 branch iterates it unconditionally (crash on
NULL). -/
def prepareUser (S : Nat) (status : Nat) (additional : Option (List KeyValue))
    (out : List Char) : UserRes :=
  if status < 400 ∧ additional.isSome then
    userHeadersLoop S (additional.getD []) false false out
  else if status = 401 then
    match additional with
    | none => .crash
    | some hs => UserRes.bindW (wwwAuthLoop S hs out) fun o => .ok o false false
  else .ok out false false

/-- The CORS constant: one APPEND_CONSTANT of four header lines. -/
def corsConstant : List Char :=
  ("\r\nAccess-Control-Allow-Origin: *"
    ++ "\r\nAccess-Control-Allow-Methods: GET, POST, OPTIONS"
    ++ "\r\nAccess-Control-Allow-Credentials: true"
    ++ "\r\nAccess-Control-Allow-Headers: Origin, Accept, Content-Type").toList

/-- The final constant "CRLF Server: lwan CRLF CRLF NUL": APPEND_CONSTANT
counts the explicit NUL, and the returned length p - headers - 1
excludes it. -/
def serverConstant : List Char :=
  "\r\nServer: lwan\r\n\r\n\x00".toList

/-- Outcome of header assembly: the returned length is 0 on overflow and
p - headers - 1 on completion; out is the byte log. -/
inductive HdrResult where
  | crash
  | overflow (out : List Char)
  | done (len : Nat) (out : List Char)
deriving DecidableEq

/-- Last stage: Date and Expires unless overridden (APPEND_STRING_LEN of
29 bytes of the date collaborator's strings), the CORS block, and the
Server / terminator constant.  doneOfWr converts the completed write
chain into the function's return value. -/
def doneOfWr : Wr → HdrResult
  | .crash => .crash
  | .overflow o => .overflow o
  | .ok o => .done (o.length - 1) o

/-- Last stage, continued: the returned length p - headers - 1 excludes
the terminating NUL the final constant stored. -/
def prepareTail (req : LwanRequest) (S : Nat) (dOv eOv : Bool) (out : List Char) : HdrResult :=
  doneOfWr
    (Wr.bind (if dOv then .ok out
      else Wr.bind (appendString S "\r\nDate: ".toList out) fun o =>
        appendStringLen S req.conn.dateDate 29 o) fun o =>
    Wr.bind (if eOv then .ok o
      else Wr.bind (appendString S "\r\nExpires: ".toList o) fun o2 =>
        appendStringLen S req.conn.dateExpires 29 o2) fun o =>
    Wr.bind (if req.allowCors then appendString S corsConstant o else .ok o) fun o =>
    appendString S serverConstant o)

/-- lwan_prepare_response_header_full request status headers S
additional_headers. -/
def HdrResult.bindW : Wr → (List Char → HdrResult) → HdrResult
  | .crash, _ => .crash
  | .overflow o, _ => .overflow o
  | .ok o, f => f o

def HdrResult.bindU : UserRes → (List Char → Bool → Bool → HdrResult) → HdrResult
  | .crash, _ => .crash
  | .overflow o, _ => .overflow o
  | .ok o dOv eOv, f => f o dOv eOv

def lwan_prepare_response_header_full (env : Env) (req : LwanRequest) (status : Nat)
    (S : Nat) (additional : Option (List KeyValue)) : HdrResult :=
  HdrResult.bindW (prepareStage1 env req status S) fun o =>
  HdrResult.bindU (prepareUser S status additional o) fun o2 dOv eOv =>
  prepareTail req S dOv eOv o2

/-- lwan_prepare_response_header: the wrapper passing
request->response.headers. -/
def lwan_prepare_response_header (env : Env) (req : LwanRequest) (status : Nat)
    (S : Nat) : HdrResult :=
  lwan_prepare_response_header_full env req status S req.responseHeaders

/-- The byte log of a header-assembly outcome. -/
def hdrOut : HdrResult → List Char
  | .crash => []
  | .overflow o => o
  | .done _ o => o

/-- The size_t the source returns: 0 on overflow. -/
def hdrReturn : HdrResult → Nat
  | .done n _ => n
  | _ => 0

/-- Whether assembly completed. -/
def hdrIsDone : HdrResult → Bool
  | .done _ _ => true
  | _ => false

/-! ## Concrete instances for evaluations -/

/-- A concrete collaborator environment (status table entry 200 OK,
29-byte date strings as the date collaborator guarantees). -/
def envT : Env :=
  { statusAsStringWithCode := fun _ => "200 OK".toList
    statusAsString := fun _ => "OK".toList
    statusAsDescriptiveString := fun _ => "Fine".toList
    errorTemplateRender := fun a b => a ++ b
    streamCallbacks := fun _ r => (200, r)
    defaultHeadersSize := 512
    defaultBufferSize := 4096 }

/-- A 29-byte RFC 1123 date, as the date collaborator produces. -/
def dateT : List Char := "Mon, 01 Jan 2024 00:00:00 GMT".toList

/-- Baseline concrete request: HTTP/1.1, NO_CONTENT_LENGTH, GET, close. -/
def reqT : LwanRequest :=
  { isHttp10 := false
    chunkedEncoding := false
    noContentLength := true
    sentHeaders := false
    allowCors := false
    method := .get
    conn := { keepAlive := false, dateDate := dateT, dateExpires := dateT }
    responseMimeType := some "a".toList
    responseContentLength := 0
    responseBuffer := []
    responseHeaders := none
    responseStreamCallback := none }

/-- The request of the C1 counterexample. -/
def reqC1bug : LwanRequest :=
  { reqT with responseMimeType := some "a".toList }

/-- Claim C1 (the code falsifies it): with a 56-byte buffer, NO_CONTENT_LENGTH,
status string 200 OK, mime type a and one additional header with key ab and
empty value, assembly reaches the additional-headers loop with 5 free bytes;
RETURN_0_ON_OVERFLOW(4) passes, CR LF and the key leave exactly 1 free byte,
and the unchecked colon and space stores land at offsets 55 and 56 — the
space one past the end of the buffer — before the value append returns 0.
The function does return 0, but it has already stored a byte at offset
S = 56. -/
theorem prepare_header_oob_write_at_size :
    hdrReturn (lwan_prepare_response_header_full envT reqC1bug 200 56
        (some [⟨"ab".toList, []⟩])) = 0 ∧
    (hdrOut (lwan_prepare_response_header_full envT reqC1bug 200 56
        (some [⟨"ab".toList, []⟩]))).length = 57 ∧
    (hdrOut (lwan_prepare_response_header_full envT reqC1bug 200 56
        (some [⟨"ab".toList, []⟩]))).getD 56 'X' = ' ' := by
  decide

/-! ## Response framer: the assembled header text

The following functions give the text the writer produces when nothing
overflows, with the same case structure as the source; the refinement
lemma below proves the writer emits exactly this text whenever the buffer
is strictly larger than it. -/

/-- The status line: HTTP version prefix plus the status-table string. -/
def statusLinePart (env : Env) (req : LwanRequest) (status : Nat) : List Char :=
  (if req.isHttp10 then "HTTP/1.0 " else "HTTP/1.1 ").toList
    ++ env.statusAsStringWithCode status

/-- The framing header: Transfer-Encoding when CHUNKED, nothing when
NO_CONTENT_LENGTH (and not CHUNKED), else Content-Length whose value is
the content-length hint when a stream callback is registered and the
body-buffer length otherwise. -/
def framingPart (req : LwanRequest) : List Char :=
  if req.chunkedEncoding then "\r\nTransfer-Encoding: chunked".toList
  else if req.noContentLength then []
  else "\r\nContent-Length: ".toList
    ++ uint_to_string (if req.responseStreamCallback.isSome then req.responseContentLength
      else req.responseBuffer.length)

/-- The Connection header. -/
def connectionPart (req : LwanRequest) : List Char :=
  (if req.conn.keepAlive then "\r\nConnection: keep-alive" else "\r\nConnection: close").toList

/-- Text of the status < 400 additional-headers loop. -/
def renderUserHeaders : List KeyValue → List Char
  | [] => []
  | h :: hs =>
    (if h.key = "Server".toList then [] else '\r' :: '\n' :: (h.key ++ ':' :: ' ' :: h.value))
      ++ renderUserHeaders hs

/-- Whether some entry has the given key. -/
def hasHdrKey (k : List Char) : List KeyValue → Bool
  | [] => false
  | h :: hs => decide (h.key = k) || hasHdrKey k hs

/-- Text of the status == 401 loop: the first WWW-Authenticate entry. -/
def renderWwwAuth : List KeyValue → List Char
  | [] => []
  | h :: hs =>
    if h.key = "WWW-Authenticate".toList then "\r\nWWW-Authenticate: ".toList ++ h.value
    else renderWwwAuth hs

/-- Text and override flags of the additional-headers stage; none is the
NULL dereference of the 401 branch. -/
def userPartSpec (status : Nat) (additional : Option (List KeyValue)) :
    Option (List Char × Bool × Bool) :=
  if status < 400 ∧ additional.isSome then
    some (renderUserHeaders (additional.getD []),
      hasHdrKey "Date".toList (additional.getD []),
      hasHdrKey "Expires".toList (additional.getD []))
  else if status = 401 then
    match additional with
    | none => none
    | some hs => some (renderWwwAuth hs, false, false)
  else some ([], false, false)

/-- Text of the last stage: Date and Expires (29 bytes each) unless
overridden, the CORS block, the Server line and terminator. -/
def tailPartSpec (req : LwanRequest) (dOv eOv : Bool) : List Char :=
  (if dOv then [] else "\r\nDate: ".toList ++ req.conn.dateDate.take 29)
    ++ (if eOv then [] else "\r\nExpires: ".toList ++ req.conn.dateExpires.take 29)
    ++ (if req.allowCors then corsConstant else [])
    ++ serverConstant

/-- The complete header text (terminating NUL included), none when
assembly dereferences NULL. -/
def headerText (env : Env) (req : LwanRequest) (status : Nat)
    (additional : Option (List KeyValue)) : Option (List Char) :=
  match req.responseMimeType, userPartSpec status additional with
  | some m, some (u, dOv, eOv) =>
    some (statusLinePart env req status ++ framingPart req
      ++ "\r\nContent-Type: ".toList ++ m ++ connectionPart req
      ++ u ++ tailPartSpec req dOv eOv)
  | _, _ => none

lemma appendStringLen_ok {S : Nat} {s : List Char} {n : Nat} {out : List Char}
    (h : out.length + n < S) :
    appendStringLen S s n out = .ok (out ++ s.take n) := by
  unfold appendStringLen
  rw [if_neg (by omega)]

lemma appendString_ok {S : Nat} {s out : List Char} (h : out.length + s.length < S) :
    appendString S s out = .ok (out ++ s) := by
  unfold appendString
  rw [appendStringLen_ok h, List.take_length]

lemma prepareStage1_ok (env : Env) (req : LwanRequest) (status S : Nat) (m : List Char)
    (hm : req.responseMimeType = some m)
    (hS : (statusLinePart env req status ++ framingPart req ++ "\r\nContent-Type: ".toList
        ++ m ++ connectionPart req).length < S) :
    prepareStage1 env req status S
      = .ok (statusLinePart env req status ++ framingPart req ++ "\r\nContent-Type: ".toList
        ++ m ++ connectionPart req) := by
  unfold prepareStage1
  cases hcb : req.chunkedEncoding <;> cases hnb : req.noContentLength <;>
    simp only [hcb, hnb, Bool.false_eq_true, if_false, if_true, ite_true, ite_false,
      statusLinePart, framingPart, connectionPart, List.length_append] at hS ⊢ <;>
  · try unfold appendUint
    repeat
      first
      | rw [appendString_ok (by
          (try simp only [List.length_append, List.length_nil] at hS ⊢); omega)]
      | simp only [Wr.bind, List.nil_append, hm]
    try simp [List.append_assoc]

lemma userHeadersLoop_ok (S : Nat) :
    ∀ (hs : List KeyValue) (dOv eOv : Bool) (out : List Char),
      out.length + (renderUserHeaders hs).length < S →
      userHeadersLoop S hs dOv eOv out
        = .ok (out ++ renderUserHeaders hs)
            (dOv || hasHdrKey "Date".toList hs) (eOv || hasHdrKey "Expires".toList hs) := by
  intro hs
  induction hs with
  | nil =>
      intro dOv eOv out h
      simp [userHeadersLoop, renderUserHeaders, hasHdrKey]
  | cons h hs ih =>
      intro dOv eOv out hlen
      by_cases hsrv : h.key = "Server".toList
      · have hd : decide (h.key = "Date".toList) = false := by rw [hsrv]; rfl
        have he : decide (h.key = "Expires".toList) = false := by rw [hsrv]; rfl
        have hlen2 : out.length + (renderUserHeaders hs).length < S := by
          simp only [renderUserHeaders, hsrv, if_pos, List.nil_append] at hlen
          simpa using hlen
        rw [userHeadersLoop, if_pos hsrv, ih dOv eOv out hlen2]
        simp [renderUserHeaders, hasHdrKey, hsrv, hd, he]
      · have hrl : (renderUserHeaders (h :: hs)).length
            = 4 + h.key.length + h.value.length + (renderUserHeaders hs).length := by
          simp only [renderUserHeaders, hsrv, if_neg, List.length_append, List.length_cons]
          simp [List.length_append]
          omega
        have hch : ¬ (S ≤ out.length + 4) := by omega
        have hb1 : (out ++ ['\r', '\n']).length + h.key.length < S := by
          simp only [List.length_append, List.length_cons, List.length_nil]
          omega
        have hb2 : (out ++ ['\r', '\n'] ++ h.key ++ [':', ' ']).length + h.value.length < S := by
          simp only [List.length_append, List.length_cons, List.length_nil]
          omega
        have hb3 : (out ++ ['\r', '\n'] ++ h.key ++ [':', ' '] ++ h.value).length
            + (renderUserHeaders hs).length < S := by
          simp only [List.length_append, List.length_cons, List.length_nil]
          omega
        rw [userHeadersLoop, if_neg hsrv, if_neg hch, appendString_ok hb1]
        dsimp only [UserRes.bindW]
        rw [appendString_ok hb2]
        dsimp only [UserRes.bindW]
        rw [ih _ _ _ hb3]
        simp only [renderUserHeaders, hasHdrKey]
        rw [if_neg hsrv]
        simp [List.append_assoc, Bool.or_assoc]

lemma wwwAuthLoop_ok (S : Nat) :
    ∀ (hs : List KeyValue) (out : List Char),
      out.length + (renderWwwAuth hs).length < S →
      wwwAuthLoop S hs out = .ok (out ++ renderWwwAuth hs) := by
  intro hs
  induction hs with
  | nil =>
      intro out h
      simp [wwwAuthLoop, renderWwwAuth]
  | cons h hs ih =>
      intro out hlen
      by_cases hk : h.key = "WWW-Authenticate".toList
      · rw [renderWwwAuth, if_pos hk] at hlen
        simp only [List.length_append] at hlen
        have hb1 : out.length + ("\r\nWWW-Authenticate: ".toList).length < S := by omega
        have hb2 : (out ++ "\r\nWWW-Authenticate: ".toList).length + h.value.length < S := by
          simp only [List.length_append]
          omega
        rw [wwwAuthLoop, if_pos hk, appendString_ok hb1]
        dsimp only [Wr.bind]
        rw [appendString_ok hb2, renderWwwAuth, if_pos hk]
        simp [List.append_assoc]
      · rw [wwwAuthLoop, if_neg hk, renderWwwAuth, if_neg hk]
        rw [renderWwwAuth, if_neg hk] at hlen
        exact ih out hlen

lemma prepareUser_ok (S status : Nat) (additional : Option (List KeyValue)) (out : List Char)
    (u : List Char) (dOv eOv : Bool)
    (hu : userPartSpec status additional = some (u, dOv, eOv))
    (hlen : out.length + u.length < S) :
    prepareUser S status additional out = .ok (out ++ u) dOv eOv := by
  unfold userPartSpec at hu
  unfold prepareUser
  by_cases h1 : status < 400 ∧ additional.isSome
  · rw [if_pos h1] at hu ⊢
    obtain ⟨hu1, hu2, hu3⟩ : u = renderUserHeaders (additional.getD [])
        ∧ dOv = hasHdrKey "Date".toList (additional.getD [])
        ∧ eOv = hasHdrKey "Expires".toList (additional.getD []) := by
      have h2 := hu
      simp only [Option.some.injEq, Prod.mk.injEq] at h2
      exact ⟨h2.1.symm, h2.2.1.symm, h2.2.2.symm⟩
    subst hu1 hu2 hu3
    rw [userHeadersLoop_ok S _ false false out hlen]
    simp
  · rw [if_neg h1] at hu ⊢
    by_cases h2 : status = 401
    · rw [if_pos h2] at hu ⊢
      cases additional with
      | none => exact absurd hu (by simp)
      | some hs =>
          dsimp only at hu ⊢
          obtain ⟨hu1, hu2, hu3⟩ : u = renderWwwAuth hs ∧ dOv = false ∧ eOv = false := by
            have h3 := hu
            simp only [Option.some.injEq, Prod.mk.injEq] at h3
            exact ⟨h3.1.symm, h3.2.1.symm, h3.2.2.symm⟩
          subst hu1 hu2 hu3
          rw [wwwAuthLoop_ok S hs out hlen]
          rfl
    · rw [if_neg h2] at hu ⊢
      obtain ⟨hu1, hu2, hu3⟩ : u = [] ∧ dOv = false ∧ eOv = false := by
        have h3 := hu
        simp only [Option.some.injEq, Prod.mk.injEq] at h3
        exact ⟨h3.1.symm, h3.2.1.symm, h3.2.2.symm⟩
      subst hu1 hu2 hu3
      simp

lemma prepareTail_done (req : LwanRequest) (S : Nat) (dOv eOv : Bool) (out : List Char)
    (hdd : 29 ≤ req.conn.dateDate.length) (hde : 29 ≤ req.conn.dateExpires.length)
    (hlen : out.length + (tailPartSpec req dOv eOv).length < S) :
    prepareTail req S dOv eOv out
      = .done ((out ++ tailPartSpec req dOv eOv).length - 1) (out ++ tailPartSpec req dOv eOv) := by
  unfold prepareTail
  cases hdb : dOv <;> cases heb : eOv <;> cases hab : req.allowCors <;>
  · try simp only [hdb, heb, hab, tailPartSpec, Bool.false_eq_true, if_false, if_true,
      ite_true, ite_false, List.nil_append, List.append_nil] at hlen ⊢
    try simp only [List.length_append, List.length_take] at hlen
    repeat
      first
      | rw [appendString_ok (by
            (try simp only [List.length_append, List.length_take, List.length_cons,
              List.length_nil] at hlen ⊢)
            omega)]
      | rw [appendStringLen_ok (by
            (try simp only [List.length_append, List.length_take, List.length_cons,
              List.length_nil] at hlen ⊢)
            omega)]
      | simp only [Wr.bind]
    simp [doneOfWr, List.append_assoc]

lemma prepare_eq_headerText (env : Env) (req : LwanRequest) (status S : Nat)
    (add : Option (List KeyValue)) (t : List Char)
    (hdd : 29 ≤ req.conn.dateDate.length) (hde : 29 ≤ req.conn.dateExpires.length)
    (ht : headerText env req status add = some t) (hS : t.length < S) :
    lwan_prepare_response_header_full env req status S add = .done (t.length - 1) t := by
  unfold headerText at ht
  cases hm : req.responseMimeType with
  | none => rw [hm] at ht; exact absurd ht (by simp)
  | some m =>
    cases hu : userPartSpec status add with
    | none => rw [hm, hu] at ht; exact absurd ht (by simp)
    | some udE =>
      obtain ⟨u, dOv, eOv⟩ := udE
      rw [hm, hu] at ht
      dsimp only at ht
      simp only [Option.some.injEq] at ht
      subst ht
      simp only [List.length_append] at hS
      have hb1 : (statusLinePart env req status ++ framingPart req
          ++ "\r\nContent-Type: ".toList ++ m ++ connectionPart req).length < S := by
        simp only [List.length_append]
        omega
      have hb2 : (statusLinePart env req status ++ framingPart req
          ++ "\r\nContent-Type: ".toList ++ m ++ connectionPart req).length + u.length < S := by
        simp only [List.length_append]
        omega
      have hb3 : (statusLinePart env req status ++ framingPart req
          ++ "\r\nContent-Type: ".toList ++ m ++ connectionPart req ++ u).length
          + (tailPartSpec req dOv eOv).length < S := by
        simp only [List.length_append]
        omega
      unfold lwan_prepare_response_header_full
      rw [prepareStage1_ok env req status S m hm hb1]
      simp only [HdrResult.bindW]
      rw [prepareUser_ok S status add _ u dOv eOv hu hb2]
      simp only [HdrResult.bindU]
      rw [prepareTail_done req S dOv eOv _ hdd hde hb3]
      try simp [List.append_assoc]

lemma appendStringLen_ne_crash {S : Nat} {s : List Char} {n : Nat} {out : List Char} :
    appendStringLen S s n out ≠ .crash := by
  unfold appendStringLen
  split <;> simp

lemma appendString_ne_crash {S : Nat} {s out : List Char} :
    appendString S s out ≠ .crash := by
  unfold appendString
  exact appendStringLen_ne_crash

lemma Wr.bind_ne_crash {r : Wr} {f : List Char → Wr}
    (h : r ≠ .crash) (hf : ∀ o, f o ≠ .crash) : Wr.bind r f ≠ .crash := by
  cases r with
  | crash => exact absurd rfl h
  | overflow o => simp [Wr.bind]
  | ok o => exact hf o

lemma userResBindW_ne_crash {r : Wr} {f : List Char → UserRes}
    (h : r ≠ .crash) (hf : ∀ o, f o ≠ .crash) : UserRes.bindW r f ≠ .crash := by
  cases r with
  | crash => exact absurd rfl h
  | overflow o => simp [UserRes.bindW]
  | ok o => exact hf o

lemma hdrResultBindW_ne_crash {r : Wr} {f : List Char → HdrResult}
    (h : r ≠ .crash) (hf : ∀ o, f o ≠ .crash) : HdrResult.bindW r f ≠ .crash := by
  cases r with
  | crash => exact absurd rfl h
  | overflow o => simp [HdrResult.bindW]
  | ok o => exact hf o

lemma hdrResultBindU_ne_crash {r : UserRes} {f : List Char → Bool → Bool → HdrResult}
    (h : r ≠ .crash) (hf : ∀ o dOv eOv, f o dOv eOv ≠ .crash) :
    HdrResult.bindU r f ≠ .crash := by
  cases r with
  | crash => exact absurd rfl h
  | overflow o => simp [HdrResult.bindU]
  | ok o dOv eOv => exact hf o dOv eOv

lemma prepareStage1_ne_crash (env : Env) (req : LwanRequest) (status S : Nat)
    (m : List Char) (hm : req.responseMimeType = some m) :
    prepareStage1 env req status S ≠ Wr.crash := by
  unfold prepareStage1
  refine Wr.bind_ne_crash appendString_ne_crash (fun o => ?_)
  refine Wr.bind_ne_crash appendString_ne_crash (fun o => ?_)
  refine Wr.bind_ne_crash ?_ (fun o => ?_)
  · split
    · exact appendString_ne_crash
    · split
      · simp
      · exact Wr.bind_ne_crash appendString_ne_crash (fun o2 => appendStringLen_ne_crash)
  · refine Wr.bind_ne_crash appendString_ne_crash (fun o2 => ?_)
    refine Wr.bind_ne_crash ?_ (fun o3 => appendString_ne_crash)
    rw [hm]
    exact appendString_ne_crash

lemma userHeadersLoop_ne_crash (S : Nat) :
    ∀ (hs : List KeyValue) (dOv eOv : Bool) (out : List Char),
      userHeadersLoop S hs dOv eOv out ≠ .crash := by
  intro hs
  induction hs with
  | nil => intro dOv eOv out; simp [userHeadersLoop]
  | cons h hs ih =>
      intro dOv eOv out
      rw [userHeadersLoop]
      split
      · exact ih dOv eOv out
      · split
        · simp
        · refine userResBindW_ne_crash appendString_ne_crash (fun o => ?_)
          refine userResBindW_ne_crash appendString_ne_crash (fun o2 => ?_)
          exact ih _ _ o2

lemma wwwAuthLoop_ne_crash (S : Nat) :
    ∀ (hs : List KeyValue) (out : List Char), wwwAuthLoop S hs out ≠ .crash := by
  intro hs
  induction hs with
  | nil => intro out; simp [wwwAuthLoop]
  | cons h hs ih =>
      intro out
      rw [wwwAuthLoop]
      split
      · exact Wr.bind_ne_crash appendString_ne_crash (fun o => appendString_ne_crash)
      · exact ih out

lemma prepareUser_ne_crash (S status : Nat) (additional : Option (List KeyValue))
    (out : List Char) (hp : status = 401 → additional.isSome) :
    prepareUser S status additional out ≠ .crash := by
  unfold prepareUser
  split_ifs with hcond h401
  · exact userHeadersLoop_ne_crash S _ false false out
  · cases additional with
    | none => exact absurd (hp h401) (by simp)
    | some hs =>
        exact userResBindW_ne_crash (wwwAuthLoop_ne_crash S hs out) (fun o => by simp)
  · simp

lemma prepareTail_ne_crash (req : LwanRequest) (S : Nat) (dOv eOv : Bool) (out : List Char) :
    prepareTail req S dOv eOv out ≠ .crash := by
  unfold prepareTail
  have hw : (Wr.bind (if dOv then .ok out
      else Wr.bind (appendString S "\r\nDate: ".toList out) fun o =>
        appendStringLen S req.conn.dateDate 29 o) fun o =>
    Wr.bind (if eOv then .ok o
      else Wr.bind (appendString S "\r\nExpires: ".toList o) fun o2 =>
        appendStringLen S req.conn.dateExpires 29 o2) fun o =>
    Wr.bind (if req.allowCors then appendString S corsConstant o else .ok o) fun o =>
    appendString S serverConstant o) ≠ .crash := by
    refine Wr.bind_ne_crash ?_ (fun o => ?_)
    · split
      · simp
      · exact Wr.bind_ne_crash appendString_ne_crash (fun o => appendStringLen_ne_crash)
    · refine Wr.bind_ne_crash ?_ (fun o2 => ?_)
      · split
        · simp
        · exact Wr.bind_ne_crash appendString_ne_crash (fun o2 => appendStringLen_ne_crash)
      · refine Wr.bind_ne_crash ?_ (fun o3 => appendString_ne_crash)
        split
        · exact appendString_ne_crash
        · simp
  generalize hgen : (Wr.bind _ _ : Wr) = r at hw ⊢
  cases r with
  | crash => exact absurd rfl hw
  | overflow o => simp [doneOfWr]
  | ok o => simp [doneOfWr]

/-- The 401 request of the C9 evaluation. -/
def req401 : LwanRequest := reqT

/-- Claim C9: header assembly never reads the additional-headers list when
status is at least 400 and is not 401 (the result is the same for any
list); it is free of null-pointer access whenever the list is non-null if
status is 401 (given the mime type the callers guarantee); and at status
401 with a NULL list it dereferences NULL while scanning for
WWW-Authenticate (concrete evaluation). -/
theorem prepare_header_additional_headers_totality :
    (∀ (env : Env) (req : LwanRequest) (status S : Nat) (h1 h2 : Option (List KeyValue)),
        400 ≤ status → status ≠ 401 →
        lwan_prepare_response_header_full env req status S h1
          = lwan_prepare_response_header_full env req status S h2) ∧
    (∀ (env : Env) (req : LwanRequest) (status S : Nat) (add : Option (List KeyValue))
        (m : List Char),
        req.responseMimeType = some m → (status = 401 → add.isSome) →
        lwan_prepare_response_header_full env req status S add ≠ .crash) ∧
    lwan_prepare_response_header_full envT req401 401 4096 none = .crash := by
  refine ⟨?_, ?_, ?_⟩
  · intro env req status S h1 h2 hge hne
    have hlt : ¬ status < 400 := by omega
    have huser : ∀ o, prepareUser S status h1 o = prepareUser S status h2 o := by
      intro o
      unfold prepareUser
      simp [hlt, hne]
    unfold lwan_prepare_response_header_full
    cases hst : prepareStage1 env req status S with
    | crash => simp [HdrResult.bindW]
    | overflow o => simp [HdrResult.bindW]
    | ok o =>
        simp only [HdrResult.bindW]
        rw [huser o]
  · intro env req status S add m hm hp
    unfold lwan_prepare_response_header_full
    refine hdrResultBindW_ne_crash (prepareStage1_ne_crash env req status S m hm) (fun o => ?_)
    refine hdrResultBindU_ne_crash (prepareUser_ne_crash S status add o hp)
      (fun o2 dOv eOv => prepareTail_ne_crash req S dOv eOv o2)
  · decide

theorem prepare_header_additional_headers_totality_witness :
    lwan_prepare_response_header_full envT reqT 404 512 (some [⟨"K".toList, "V".toList⟩])
      = lwan_prepare_response_header_full envT reqT 404 512 none :=
  prepare_header_additional_headers_totality.1 envT reqT 404 512
    (some [⟨"K".toList, "V".toList⟩]) none (by omega) (by omega)

/-- Request with both RESPONSE_CHUNKED_ENCODING and
RESPONSE_NO_CONTENT_LENGTH set. -/
def reqChunkedNoCL : LwanRequest :=
  { reqT with chunkedEncoding := true, noContentLength := true }

/-- Number of positions at which pat occurs in the byte list. -/
def countOccur (pat : List Char) : List Char → Nat
  | [] => 0
  | c :: rest => (if pat.isPrefixOf (c :: rest) then 1 else 0) + countOccur pat rest

set_option maxRecDepth 8000 in
/-- Claim C5 as stated is false: when NO_CONTENT_LENGTH is set together
with CHUNKED, the source's if-chain tests CHUNKED first and still emits
Transfer-Encoding: chunked, so it is not the case that NO_CONTENT_LENGTH
alone suppresses both framing headers.  Concrete evaluation: both flags
set, status 200, 512-byte buffer. -/
theorem content_length_framing_counterexample :
    reqChunkedNoCL.noContentLength = true ∧
    hdrIsDone (lwan_prepare_response_header_full envT reqChunkedNoCL 200 512 (some [])) = true ∧
    countOccur ("\r\nTransfer-Encoding: chunked".toList)
      (hdrOut (lwan_prepare_response_header_full envT reqChunkedNoCL 200 512 (some []))) = 1 := by
  decide

/-- Claim C5 (amended: when CHUNKED and NO_CONTENT_LENGTH are both set,
CHUNKED takes priority and Transfer-Encoding is emitted; with that
proviso the claim holds): the assembled header carries the framing slot
framingPart, which is a Content-Length header iff neither CHUNKED nor
NO_CONTENT_LENGTH is set, whose value is the stream callback's
content-length hint when a callback is registered and the body-buffer
length otherwise; when CHUNKED is set the slot is Transfer-Encoding:
chunked; when only NO_CONTENT_LENGTH is set the slot is empty.  The first
two conjuncts place the slot in the text the writer actually produces. -/
theorem content_length_framing_iff :
    (∀ (env : Env) (req : LwanRequest) (status : Nat) (add : Option (List KeyValue))
        (m u : List Char) (dOv eOv : Bool),
        req.responseMimeType = some m → userPartSpec status add = some (u, dOv, eOv) →
        headerText env req status add
          = some (statusLinePart env req status ++ framingPart req
            ++ "\r\nContent-Type: ".toList ++ m ++ connectionPart req
            ++ u ++ tailPartSpec req dOv eOv)) ∧
    (∀ (env : Env) (req : LwanRequest) (status S : Nat) (add : Option (List KeyValue))
        (t : List Char),
        29 ≤ req.conn.dateDate.length → 29 ≤ req.conn.dateExpires.length →
        headerText env req status add = some t → t.length < S →
        lwan_prepare_response_header_full env req status S add = .done (t.length - 1) t) ∧
    (∀ req : LwanRequest, req.chunkedEncoding = true →
        framingPart req = "\r\nTransfer-Encoding: chunked".toList) ∧
    (∀ req : LwanRequest, req.chunkedEncoding = false → req.noContentLength = true →
        framingPart req = []) ∧
    (∀ req : LwanRequest, req.chunkedEncoding = false → req.noContentLength = false →
        framingPart req = "\r\nContent-Length: ".toList
          ++ uint_to_string (if req.responseStreamCallback.isSome
            then req.responseContentLength else req.responseBuffer.length)) ∧
    (∀ req : LwanRequest, ("\r\nContent-Length: ".toList <+: framingPart req)
        ↔ (req.chunkedEncoding = false ∧ req.noContentLength = false)) := by
  refine ⟨?_, ?_, ?_, ?_, ?_, ?_⟩
  · intro env req status add m u dOv eOv hm hu
    unfold headerText
    rw [hm, hu]
  · intro env req status S add t hdd hde ht hS
    exact prepare_eq_headerText env req status S add t hdd hde ht hS
  · intro req hc
    rw [framingPart, if_pos hc]
  · intro req hc hn
    rw [framingPart, if_neg (by simp [hc]), if_pos hn]
  · intro req hc hn
    rw [framingPart, if_neg (by simp [hc]), if_neg (by simp [hn])]
  · intro req
    constructor
    · intro hpre
      by_cases hc : req.chunkedEncoding = true
      · rw [framingPart, if_pos hc] at hpre
        exact absurd hpre (by decide)
      · by_cases hn : req.noContentLength = true
        · rw [framingPart, if_neg hc, if_pos hn] at hpre
          exact absurd hpre (by decide)
        · exact ⟨by revert hc; cases req.chunkedEncoding <;> simp,
            by revert hn; cases req.noContentLength <;> simp⟩
    · rintro ⟨hc, hn⟩
      rw [framingPart, if_neg (by simp [hc]), if_neg (by simp [hn])]
      exact List.prefix_append _ _

theorem content_length_framing_iff_witness :
    framingPart reqT = [] :=
  content_length_framing_iff.2.2.2.1 reqT rfl rfl

/-! ## Response framer: header lines as key-value pairs

Each emitted header piece has the shape CR LF key colon space value, so
the text between the status line and the terminating CR LF CR LF NUL is
the rendering of a list of key-value pairs.  headerKVs lists the pairs
with the same case structure as the source; the decomposition lemma below
equates its rendering with headerText. -/

/-- Renders key-value pairs the way every append in the source lays a
header line out: CR LF, key, colon, space, value. -/
def renderKVs : List (List Char × List Char) → List Char
  | [] => []
  | p :: ps => ('\r' :: '\n' :: (p.1 ++ ':' :: ' ' :: p.2)) ++ renderKVs ps

/-- The framing slot as a pair list. -/
def framingKVs (req : LwanRequest) : List (List Char × List Char) :=
  if req.chunkedEncoding then [("Transfer-Encoding".toList, "chunked".toList)]
  else if req.noContentLength then []
  else [("Content-Length".toList,
    uint_to_string (if req.responseStreamCallback.isSome then req.responseContentLength
      else req.responseBuffer.length))]

/-- The additional-headers loop as a pair list: Server entries skipped. -/
def userKVs : List KeyValue → List (List Char × List Char)
  | [] => []
  | h :: hs => (if h.key = "Server".toList then [] else [(h.key, h.value)]) ++ userKVs hs

/-- The 401 loop as a pair list: the first WWW-Authenticate entry. -/
def wwwAuthKVs : List KeyValue → List (List Char × List Char)
  | [] => []
  | h :: hs =>
    if h.key = "WWW-Authenticate".toList then [("WWW-Authenticate".toList, h.value)]
    else wwwAuthKVs hs

/-- Pair-list form of userPartSpec. -/
def userKVsSpec (status : Nat) (additional : Option (List KeyValue)) :
    Option (List (List Char × List Char) × Bool × Bool) :=
  if status < 400 ∧ additional.isSome then
    some (userKVs (additional.getD []),
      hasHdrKey "Date".toList (additional.getD []),
      hasHdrKey "Expires".toList (additional.getD []))
  else if status = 401 then
    match additional with
    | none => none
    | some hs => some (wwwAuthKVs hs, false, false)
  else some ([], false, false)

/-- The four CORS lines of the CORS constant. -/
def corsKVs : List (List Char × List Char) :=
  [("Access-Control-Allow-Origin".toList, "*".toList),
   ("Access-Control-Allow-Methods".toList, "GET, POST, OPTIONS".toList),
   ("Access-Control-Allow-Credentials".toList, "true".toList),
   ("Access-Control-Allow-Headers".toList, "Origin, Accept, Content-Type".toList)]

/-- All header lines of the assembled response, as key-value pairs in
emission order. -/
def headerKVs (req : LwanRequest) (status : Nat) (additional : Option (List KeyValue)) :
    Option (List (List Char × List Char)) :=
  match req.responseMimeType, userKVsSpec status additional with
  | some m, some (kvs, dOv, eOv) =>
    some (framingKVs req ++ [("Content-Type".toList, m)]
      ++ [("Connection".toList, (if req.conn.keepAlive then "keep-alive" else "close").toList)]
      ++ kvs
      ++ (if dOv then [] else [("Date".toList, req.conn.dateDate.take 29)])
      ++ (if eOv then [] else [("Expires".toList, req.conn.dateExpires.take 29)])
      ++ (if req.allowCors then corsKVs else [])
      ++ [("Server".toList, "lwan".toList)])
  | _, _ => none

lemma renderKVs_append (a b : List (List Char × List Char)) :
    renderKVs (a ++ b) = renderKVs a ++ renderKVs b := by
  induction a with
  | nil => simp [renderKVs]
  | cons p ps ih => simp [renderKVs, ih]

lemma renderKVs_userKVs : ∀ hs : List KeyValue, renderKVs (userKVs hs) = renderUserHeaders hs := by
  intro hs
  induction hs with
  | nil => rfl
  | cons h hs ih =>
      by_cases hk : h.key = "Server".toList
      · rw [userKVs, renderUserHeaders, if_pos hk, if_pos hk]
        simpa using ih
      · rw [userKVs, renderUserHeaders, if_neg hk, if_neg hk, renderKVs_append, ih]
        simp [renderKVs]

lemma renderKVs_wwwAuthKVs : ∀ hs : List KeyValue,
    renderKVs (wwwAuthKVs hs) = renderWwwAuth hs := by
  intro hs
  induction hs with
  | nil => rfl
  | cons h hs ih =>
      by_cases hk : h.key = "WWW-Authenticate".toList
      · rw [wwwAuthKVs, renderWwwAuth, if_pos hk, if_pos hk]
        simp [renderKVs]
      · rw [wwwAuthKVs, renderWwwAuth, if_neg hk, if_neg hk]
        exact ih

lemma renderKVs_framingKVs (req : LwanRequest) :
    renderKVs (framingKVs req) = framingPart req := by
  unfold framingKVs framingPart
  split
  · rfl
  · split
    · rfl
    · simp [renderKVs]

lemma userKVsSpec_map (status : Nat) (additional : Option (List KeyValue)) :
    userPartSpec status additional
      = (userKVsSpec status additional).map (fun e => (renderKVs e.1, e.2.1, e.2.2)) := by
  unfold userPartSpec userKVsSpec
  split
  · simp [renderKVs_userKVs]
  · split
    · cases additional with
      | none => rfl
      | some hs => simp [renderKVs_wwwAuthKVs]
    · simp [renderKVs]

lemma headerText_decomp (env : Env) (req : LwanRequest) (status : Nat)
    (additional : Option (List KeyValue)) :
    headerText env req status additional
      = (headerKVs req status additional).map
          (fun kvs => statusLinePart env req status ++ renderKVs kvs
            ++ "\r\n\r\n\x00".toList) := by
  unfold headerText headerKVs
  rw [userKVsSpec_map]
  cases hm : req.responseMimeType with
  | none => cases userKVsSpec status additional <;> rfl
  | some m =>
    cases hu : userKVsSpec status additional with
    | none => rfl
    | some kde =>
        obtain ⟨kvs, dOv, eOv⟩ := kde
        dsimp only [Option.map]
        have hccl : connectionPart req
            = renderKVs [("Connection".toList,
                (if req.conn.keepAlive then "keep-alive" else "close").toList)] := by
          unfold connectionPart
          cases req.conn.keepAlive <;> simp [renderKVs]
        have hct : ("\r\nContent-Type: ".toList ++ m : List Char)
            = renderKVs [("Content-Type".toList, m)] := by
          simp [renderKVs]
        have htail : tailPartSpec req dOv eOv
            = renderKVs ((if dOv then [] else [("Date".toList, req.conn.dateDate.take 29)])
                ++ (if eOv then [] else [("Expires".toList, req.conn.dateExpires.take 29)])
                ++ (if req.allowCors then corsKVs else []))
              ++ "\r\nServer: lwan".toList ++ "\r\n\r\n\x00".toList := by
          unfold tailPartSpec serverConstant corsConstant
          cases dOv <;> cases eOv <;> cases hab : req.allowCors <;>
            simp [renderKVs_append, renderKVs, corsKVs, List.append_assoc]
        rw [renderKVs_append, renderKVs_append, renderKVs_append, renderKVs_append,
          renderKVs_append, renderKVs_append, renderKVs_append]
        rw [renderKVs_framingKVs, ← hct, ← hccl, htail]
        have hsrv : renderKVs [("Server".toList, "lwan".toList)]
            = "\r\nServer: lwan".toList := by
          simp [renderKVs]
        rw [hsrv]
        simp [renderKVs_append, List.append_assoc]

/-- Entries of a pair list having the given key. -/
def kvFilter (k : List Char) : List (List Char × List Char) → List (List Char × List Char)
  | [] => []
  | p :: ps => (if p.1 = k then [p] else []) ++ kvFilter k ps

/-- Number of additional-header entries with the given key. -/
def countKeyIn (k : List Char) : List KeyValue → Nat
  | [] => 0
  | h :: hs => (if h.key = k then 1 else 0) + countKeyIn k hs

lemma kvFilter_append (k : List Char) (a b : List (List Char × List Char)) :
    kvFilter k (a ++ b) = kvFilter k a ++ kvFilter k b := by
  induction a with
  | nil => simp [kvFilter]
  | cons p ps ih => simp [kvFilter, ih, List.append_assoc]

lemma kvFilter_singleton_ne {k a v : List Char} (h : ¬ a = k) :
    kvFilter k [(a, v)] = [] := by
  simp [kvFilter, h]

lemma kvFilter_singleton_eq (k v : List Char) : kvFilter k [(k, v)] = [(k, v)] := by
  simp [kvFilter]

lemma kvFilter_userKVs_length (k : List Char) (hk : ¬ k = "Server".toList) :
    ∀ hs : List KeyValue, (kvFilter k (userKVs hs)).length = countKeyIn k hs := by
  intro hs
  induction hs with
  | nil => rfl
  | cons h hs ih =>
      by_cases hsrv : h.key = "Server".toList
      · have hne : ¬ h.key = k := by rw [hsrv]; intro hc; exact hk hc.symm
        rw [userKVs, if_pos hsrv, countKeyIn, if_neg hne]
        simpa using ih
      · rw [userKVs, if_neg hsrv, countKeyIn, kvFilter_append]
        by_cases hkk : h.key = k
        · rw [if_pos hkk]
          have : kvFilter k [(h.key, h.value)] = [(h.key, h.value)] := by
            simp [kvFilter, hkk]
          rw [this]
          simp [ih]
          omega
        · rw [if_neg hkk, kvFilter_singleton_ne hkk]
          simpa using ih

lemma kvFilter_userKVs_server :
    ∀ hs : List KeyValue, kvFilter "Server".toList (userKVs hs) = [] := by
  intro hs
  induction hs with
  | nil => rfl
  | cons h hs ih =>
      by_cases hsrv : h.key = "Server".toList
      · rw [userKVs, if_pos hsrv]
        simpa using ih
      · rw [userKVs, if_neg hsrv, kvFilter_append, kvFilter_singleton_ne hsrv]
        simpa using ih

lemma hasHdrKey_false_iff (k : List Char) :
    ∀ hs : List KeyValue, hasHdrKey k hs = false ↔ countKeyIn k hs = 0 := by
  intro hs
  induction hs with
  | nil => simp [hasHdrKey, countKeyIn]
  | cons h hs ih =>
      rw [hasHdrKey, countKeyIn]
      by_cases hkk : h.key = k
      · simp [hkk]
      · simp [hkk, ih]

/-- Request carrying two user Date headers for the C6 evaluation. -/
def reqDupDate : LwanRequest := reqT

set_option maxRecDepth 20000 in
/-- Claim C6 as stated is false: two additional headers with key Date are
both emitted, so the output carries two Date lines, not exactly one.
Concrete evaluation: status 200, 512-byte buffer, additional headers
(Date, A) and (Date, B); the byte log contains two occurrences of the
line start CR LF "Date: " (and assembly completed). -/
theorem user_override_policy_counterexample :
    hdrIsDone (lwan_prepare_response_header_full envT reqDupDate 200 512
      (some [⟨"Date".toList, "A".toList⟩, ⟨"Date".toList, "B".toList⟩])) = true ∧
    countOccur ("\r\nDate: ".toList)
      (hdrOut (lwan_prepare_response_header_full envT reqDupDate 200 512
        (some [⟨"Date".toList, "A".toList⟩, ⟨"Date".toList, "B".toList⟩]))) = 2 := by
  decide

/-- Claim C6 (amended: restricted to status < 400 — the source only emits
user headers then — and to lists that supply Date and Expires at most
once each; with duplicates every user occurrence is emitted): among the
assembled header lines, the Date lines are exactly the user's Date
entries when the user supplied one (no server-generated Date) and exactly
the one server-generated Date line otherwise, and in both cases there is
exactly one; likewise for Expires; and there is exactly one Server line,
whose value is lwan — user Server entries are dropped.  The last conjunct
grounds the line list in the produced text. -/
theorem user_override_policy (req : LwanRequest) (status : Nat) (hs : List KeyValue)
    (m : List Char) (kvs : List (List Char × List Char))
    (hlt : status < 400) (hm : req.responseMimeType = some m)
    (hd1 : countKeyIn "Date".toList hs ≤ 1) (he1 : countKeyIn "Expires".toList hs ≤ 1)
    (hkv : headerKVs req status (some hs) = some kvs) :
    (kvFilter "Date".toList kvs).length = 1 ∧
    (hasHdrKey "Date".toList hs = true →
      kvFilter "Date".toList kvs = kvFilter "Date".toList (userKVs hs)) ∧
    (hasHdrKey "Date".toList hs = false →
      kvFilter "Date".toList kvs = [("Date".toList, req.conn.dateDate.take 29)]) ∧
    (kvFilter "Expires".toList kvs).length = 1 ∧
    (hasHdrKey "Expires".toList hs = true →
      kvFilter "Expires".toList kvs = kvFilter "Expires".toList (userKVs hs)) ∧
    (hasHdrKey "Expires".toList hs = false →
      kvFilter "Expires".toList kvs = [("Expires".toList, req.conn.dateExpires.take 29)]) ∧
    kvFilter "Server".toList kvs = [("Server".toList, "lwan".toList)] ∧
    (∀ env : Env, headerText env req status (some hs)
      = some (statusLinePart env req status ++ renderKVs kvs ++ "\r\n\r\n\x00".toList)) := by
  have hspec : userKVsSpec status (some hs)
      = some (userKVs hs, hasHdrKey "Date".toList hs, hasHdrKey "Expires".toList hs) := by
    unfold userKVsSpec
    rw [if_pos ⟨hlt, by simp⟩]
    simp
  have hkvs : kvs = framingKVs req ++ [("Content-Type".toList, m)]
      ++ [("Connection".toList, (if req.conn.keepAlive then "keep-alive" else "close").toList)]
      ++ userKVs hs
      ++ (if hasHdrKey "Date".toList hs then []
          else [("Date".toList, req.conn.dateDate.take 29)])
      ++ (if hasHdrKey "Expires".toList hs then []
          else [("Expires".toList, req.conn.dateExpires.take 29)])
      ++ (if req.allowCors then corsKVs else [])
      ++ [("Server".toList, "lwan".toList)] := by
    unfold headerKVs at hkv
    rw [hm, hspec] at hkv
    dsimp only at hkv
    simp only [Option.some.injEq] at hkv
    exact hkv.symm
  subst hkvs
  have hfrD : kvFilter "Date".toList (framingKVs req) = [] := by
    unfold framingKVs
    split
    · exact kvFilter_singleton_ne (by decide)
    · split
      · rfl
      · exact kvFilter_singleton_ne (by decide)
  have hfrE : kvFilter "Expires".toList (framingKVs req) = [] := by
    unfold framingKVs
    split
    · exact kvFilter_singleton_ne (by decide)
    · split
      · rfl
      · exact kvFilter_singleton_ne (by decide)
  have hfrS : kvFilter "Server".toList (framingKVs req) = [] := by
    unfold framingKVs
    split
    · exact kvFilter_singleton_ne (by decide)
    · split
      · rfl
      · exact kvFilter_singleton_ne (by decide)
  have hcorsD : kvFilter "Date".toList (if req.allowCors then corsKVs else []) = [] := by
    split
    · decide
    · rfl
  have hcorsE : kvFilter "Expires".toList (if req.allowCors then corsKVs else []) = [] := by
    split
    · decide
    · rfl
  have hcorsS : kvFilter "Server".toList (if req.allowCors then corsKVs else []) = [] := by
    split
    · decide
    · rfl
  have hdsegD : kvFilter "Date".toList
      (if hasHdrKey "Date".toList hs then []
        else [("Date".toList, req.conn.dateDate.take 29)])
      = (if hasHdrKey "Date".toList hs then []
        else [("Date".toList, req.conn.dateDate.take 29)]) := by
    split
    · rfl
    · exact kvFilter_singleton_eq _ _
  have hdsegE : kvFilter "Expires".toList
      (if hasHdrKey "Date".toList hs then []
        else [("Date".toList, req.conn.dateDate.take 29)]) = [] := by
    split
    · rfl
    · exact kvFilter_singleton_ne (by decide)
  have hdsegS : kvFilter "Server".toList
      (if hasHdrKey "Date".toList hs then []
        else [("Date".toList, req.conn.dateDate.take 29)]) = [] := by
    split
    · rfl
    · exact kvFilter_singleton_ne (by decide)
  have hesegD : kvFilter "Date".toList
      (if hasHdrKey "Expires".toList hs then []
        else [("Expires".toList, req.conn.dateExpires.take 29)]) = [] := by
    split
    · rfl
    · exact kvFilter_singleton_ne (by decide)
  have hesegE : kvFilter "Expires".toList
      (if hasHdrKey "Expires".toList hs then []
        else [("Expires".toList, req.conn.dateExpires.take 29)])
      = (if hasHdrKey "Expires".toList hs then []
        else [("Expires".toList, req.conn.dateExpires.take 29)]) := by
    split
    · rfl
    · exact kvFilter_singleton_eq _ _
  have hesegS : kvFilter "Server".toList
      (if hasHdrKey "Expires".toList hs then []
        else [("Expires".toList, req.conn.dateExpires.take 29)]) = [] := by
    split
    · rfl
    · exact kvFilter_singleton_ne (by decide)
  have hD : kvFilter "Date".toList (framingKVs req ++ [("Content-Type".toList, m)]
      ++ [("Connection".toList, (if req.conn.keepAlive then "keep-alive" else "close").toList)]
      ++ userKVs hs
      ++ (if hasHdrKey "Date".toList hs then []
          else [("Date".toList, req.conn.dateDate.take 29)])
      ++ (if hasHdrKey "Expires".toList hs then []
          else [("Expires".toList, req.conn.dateExpires.take 29)])
      ++ (if req.allowCors then corsKVs else [])
      ++ [("Server".toList, "lwan".toList)])
      = kvFilter "Date".toList (userKVs hs)
        ++ (if hasHdrKey "Date".toList hs then []
          else [("Date".toList, req.conn.dateDate.take 29)]) := by
    simp only [kvFilter_append, hfrD, hdsegD, hesegD, hcorsD,
      kvFilter_singleton_ne (show ¬ ("Content-Type".toList : List Char) = "Date".toList by decide),
      kvFilter_singleton_ne (show ¬ ("Connection".toList : List Char) = "Date".toList by decide),
      kvFilter_singleton_ne (show ¬ ("Server".toList : List Char) = "Date".toList by decide)]
    simp
  have hE : kvFilter "Expires".toList (framingKVs req ++ [("Content-Type".toList, m)]
      ++ [("Connection".toList, (if req.conn.keepAlive then "keep-alive" else "close").toList)]
      ++ userKVs hs
      ++ (if hasHdrKey "Date".toList hs then []
          else [("Date".toList, req.conn.dateDate.take 29)])
      ++ (if hasHdrKey "Expires".toList hs then []
          else [("Expires".toList, req.conn.dateExpires.take 29)])
      ++ (if req.allowCors then corsKVs else [])
      ++ [("Server".toList, "lwan".toList)])
      = kvFilter "Expires".toList (userKVs hs)
        ++ (if hasHdrKey "Expires".toList hs then []
          else [("Expires".toList, req.conn.dateExpires.take 29)]) := by
    simp only [kvFilter_append, hfrE, hdsegE, hesegE, hcorsE,
      kvFilter_singleton_ne (show ¬ ("Content-Type".toList : List Char) = "Expires".toList by decide),
      kvFilter_singleton_ne (show ¬ ("Connection".toList : List Char) = "Expires".toList by decide),
      kvFilter_singleton_ne (show ¬ ("Server".toList : List Char) = "Expires".toList by decide)]
    simp
  have hS : kvFilter "Server".toList (framingKVs req ++ [("Content-Type".toList, m)]
      ++ [("Connection".toList, (if req.conn.keepAlive then "keep-alive" else "close").toList)]
      ++ userKVs hs
      ++ (if hasHdrKey "Date".toList hs then []
          else [("Date".toList, req.conn.dateDate.take 29)])
      ++ (if hasHdrKey "Expires".toList hs then []
          else [("Expires".toList, req.conn.dateExpires.take 29)])
      ++ (if req.allowCors then corsKVs else [])
      ++ [("Server".toList, "lwan".toList)])
      = [("Server".toList, "lwan".toList)] := by
    simp only [kvFilter_append, hfrS, hdsegS, hesegS, hcorsS, kvFilter_userKVs_server,
      kvFilter_singleton_ne (show ¬ ("Content-Type".toList : List Char) = "Server".toList by decide),
      kvFilter_singleton_ne (show ¬ ("Connection".toList : List Char) = "Server".toList by decide),
      kvFilter_singleton_eq "Server".toList "lwan".toList]
    simp
  have hlenD : (kvFilter "Date".toList (userKVs hs)).length = countKeyIn "Date".toList hs :=
    kvFilter_userKVs_length _ (by decide) hs
  have hlenE : (kvFilter "Expires".toList (userKVs hs)).length = countKeyIn "Expires".toList hs :=
    kvFilter_userKVs_length _ (by decide) hs
  refine ⟨?_, ?_, ?_, ?_, ?_, ?_, ?_, ?_⟩
  · rw [hD]
    cases hcase : hasHdrKey "Date".toList hs
    · have hc0 : countKeyIn "Date".toList hs = 0 := (hasHdrKey_false_iff _ hs).mp hcase
      simp only [Bool.false_eq_true, if_false, List.length_append, List.length_cons,
        List.length_nil, hlenD, hc0]
    · have hc1 : ¬ countKeyIn "Date".toList hs = 0 := by
        intro hc
        have := (hasHdrKey_false_iff "Date".toList hs).mpr hc
        rw [hcase] at this
        exact absurd this (by simp)
      simp only [if_true, List.append_nil, hlenD]
      omega
  · intro hcase
    rw [hD, hcase]
    simp
  · intro hcase
    rw [hD, hcase]
    have hc0 : countKeyIn "Date".toList hs = 0 := (hasHdrKey_false_iff _ hs).mp hcase
    have : kvFilter "Date".toList (userKVs hs) = [] := by
      have := hlenD.trans hc0
      exact List.length_eq_zero.mp this
    rw [this]
    simp
  · rw [hE]
    cases hcase : hasHdrKey "Expires".toList hs
    · have hc0 : countKeyIn "Expires".toList hs = 0 := (hasHdrKey_false_iff _ hs).mp hcase
      simp only [Bool.false_eq_true, if_false, List.length_append, List.length_cons,
        List.length_nil, hlenE, hc0]
    · have hc1 : ¬ countKeyIn "Expires".toList hs = 0 := by
        intro hc
        have := (hasHdrKey_false_iff "Expires".toList hs).mpr hc
        rw [hcase] at this
        exact absurd this (by simp)
      simp only [if_true, List.append_nil, hlenE]
      omega
  · intro hcase
    rw [hE, hcase]
    simp
  · intro hcase
    rw [hE, hcase]
    have hc0 : countKeyIn "Expires".toList hs = 0 := (hasHdrKey_false_iff _ hs).mp hcase
    have : kvFilter "Expires".toList (userKVs hs) = [] := by
      have := hlenE.trans hc0
      exact List.length_eq_zero.mp this
    rw [this]
    simp
  · exact hS
  · intro env
    rw [headerText_decomp, hkv]
    rfl

theorem user_override_policy_witness :
    (kvFilter "Date".toList
      ((headerKVs reqT 200 (some [⟨"Date".toList, "X".toList⟩])).getD [])).length = 1 ∧
    kvFilter "Server".toList
      ((headerKVs reqT 200 (some [⟨"Date".toList, "X".toList⟩])).getD [])
      = [("Server".toList, "lwan".toList)] :=
  ⟨(user_override_policy reqT 200 [⟨"Date".toList, "X".toList⟩] "a".toList
      ((headerKVs reqT 200 (some [⟨"Date".toList, "X".toList⟩])).getD [])
      (by omega) rfl (by decide) (by decide) rfl).1,
   (user_override_policy reqT 200 [⟨"Date".toList, "X".toList⟩] "a".toList
      ((headerKVs reqT 200 (some [⟨"Date".toList, "X".toList⟩])).getD [])
      (by omega) rfl (by decide) (by decide) rfl).2.2.2.2.2.2.1⟩

/-! ## Response framer: emission

lwan_send and lwan_writev (the socket collaborators) and coro_yield are
recorded as events.  A send carries its bytes and whether MSG_MORE was
passed; a writev carries its iovecs. -/

/-- Yield values CONN_CORO_MAY_RESUME / CONN_CORO_ABORT. -/
inductive ConnCoroYield where
  | mayResume
  | abort
deriving DecidableEq

/-- One observable I/O action of the framer. -/
inductive Ev where
  | send (bytes : List Char) (msgMore : Bool)
  | writev (vecs : List (List Char))
  | coroYield (v : ConnCoroYield)
deriving DecidableEq

/-- Hexadecimal digit (lowercase), as printf %x produces. -/
def hexDigitChar (n : Nat) : Char :=
  if n < 10 then Char.ofNat (48 + n) else Char.ofNat (87 + n)

/-- Lowercase hexadecimal digits of n, most significant first (fuel-based
so concrete runs reduce in the kernel; fuel n suffices for every n). -/
def hexDigitsAux : Nat → Nat → List Char
  | 0, _ => []
  | fuel + 1, n =>
    if n < 16 then [hexDigitChar n]
    else hexDigitsAux fuel (n / 16) ++ [hexDigitChar (n % 16)]

/-- snprintf %zx of a chunk length. -/
def hexDigits (n : Nat) : List Char :=
  hexDigitsAux n n

lemma hexDigitsAux_length_le : ∀ (fuel k n : Nat), n < 16 ^ k → 1 ≤ k →
    (hexDigitsAux fuel n).length ≤ k := by
  intro fuel
  induction fuel with
  | zero => intro k n _ hk; simp [hexDigitsAux]
  | succ fuel ih =>
      intro k n hn hk
      rw [hexDigitsAux]
      by_cases hsm : n < 16
      · rw [if_pos hsm]
        simpa using hk
      · rw [if_neg hsm]
        have hk2 : 2 ≤ k := by
          by_contra hlt
          have hk1 : k = 1 := by omega
          rw [hk1] at hn
          simp at hn
          omega
        have hdiv : n / 16 < 16 ^ (k - 1) := by
          have h16 : (16 : Nat) ^ k = 16 ^ (k - 1) * 16 := by
            have : k - 1 + 1 = k := by omega
            rw [← this, pow_succ]
            simp
          apply Nat.div_lt_of_lt_mul
          rw [mul_comm]
          rw [h16] at hn
          omega
        have := ih (k - 1) (n / 16) hdiv (by omega)
        simp only [List.length_append, List.length_cons, List.length_nil]
        omega

lemma hexDigits_length_le_16 (n : Nat) (hn : n < 16 ^ 16) :
    (hexDigits n).length ≤ 16 :=
  hexDigitsAux_length_le n 16 n hn (by omega)

/-- lwan_response_set_chunked request status: returns false if headers
were already sent; sets RESPONSE_CHUNKED_ENCODING, assembles headers into
a DEFAULT_BUFFER_SIZE stack buffer, returns false on assembly failure
(the flag stays set), else marks headers sent and sends them with
MSG_MORE.  none models the assembly crash (NULL dereference). -/
def lwan_response_set_chunked (env : Env) (req : LwanRequest) (status : Nat) :
    Option (List Ev × LwanRequest × Bool) :=
  if req.sentHeaders then some ([], req, false)
  else
    let req1 := { req with chunkedEncoding := true }
    match lwan_prepare_response_header env req1 status env.defaultBufferSize with
    | .crash => none
    | .overflow _ => some ([], req1, false)
    | .done len out =>
      if len = 0 then some ([], req1, false)
      else some ([.send (out.take len) true], { req1 with sentHeaders := true }, true)

/-- Body of lwan_response_send_chunk after the headers are on the wire:
an empty buffer sends the terminating chunk 0 CRLF CRLF and returns; an
unrepresentable chunk-size line (would not fit snprintf's
3 * sizeof(size_t) + 2 = 26-byte buffer) yields CONN_CORO_ABORT; else a
three-iovec writev of hex length CRLF, the body, CRLF, then the buffer is
cleared and the coroutine yields CONN_CORO_MAY_RESUME. -/
def sendChunkBody (evs0 : List Ev) (req : LwanRequest) : Option (List Ev × LwanRequest) :=
  if req.responseBuffer.length = 0 then
    some (evs0 ++ [.send "0\r\n\r\n".toList false], req)
  else
    let chunkSize := hexDigits req.responseBuffer.length ++ "\r\n".toList
    if 26 ≤ chunkSize.length then some (evs0 ++ [.coroYield .abort], req)
    else
      some (evs0 ++ [.writev [chunkSize, req.responseBuffer, "\r\n".toList],
          .coroYield .mayResume],
        { req with responseBuffer := [] })

/-- lwan_response_send_chunk. -/
def lwan_response_send_chunk (env : Env) (req : LwanRequest) :
    Option (List Ev × LwanRequest) :=
  if req.sentHeaders then sendChunkBody [] req
  else
    match lwan_response_set_chunked env req 200 with
    | none => none
    | some (evs, req1, false) => some (evs, req1)
    | some (evs, req1, true) => sendChunkBody evs req1

/-- lwan_response_set_event_stream request status: like set_chunked but
sets mime text/event-stream and RESPONSE_NO_CONTENT_LENGTH. -/
def lwan_response_set_event_stream (env : Env) (req : LwanRequest) (status : Nat) :
    Option (List Ev × LwanRequest × Bool) :=
  if req.sentHeaders then some ([], req, false)
  else
    let req1 := { req with
      responseMimeType := some "text/event-stream".toList
      noContentLength := true }
    match lwan_prepare_response_header env req1 status env.defaultBufferSize with
    | .crash => none
    | .overflow _ => some ([], req1, false)
    | .done len out =>
      if len = 0 then some ([], req1, false)
      else some ([.send (out.take len) true], { req1 with sentHeaders := true }, true)

/-- The iovec list lwan_response_send_event assembles: optional event
name line, optional data segment, terminating CRLF CRLF. -/
def sendEventVecs (event : Option (List Char)) (buffer : List Char) : List (List Char) :=
  (match event with
   | some e => ["event: ".toList, e, "\r\n".toList]
   | none => []) ++
  (if buffer.length = 0 then [] else ["data: ".toList, buffer]) ++
  ["\r\n\r\n".toList]

/-- lwan_response_send_event request event. -/
def lwan_response_send_event (env : Env) (req : LwanRequest) (event : Option (List Char)) :
    Option (List Ev × LwanRequest) :=
  if req.sentHeaders then
    some ([.writev (sendEventVecs event req.responseBuffer), .coroYield .mayResume],
      { req with responseBuffer := [] })
  else
    match lwan_response_set_event_stream env req 200 with
    | none => none
    | some (evs, req1, false) => some (evs, req1)
    | some (evs, req1, true) =>
      some (evs ++ [.writev (sendEventVecs event req1.responseBuffer), .coroYield .mayResume],
        { req1 with responseBuffer := [] })

/-- lwan_default_response's effect on the request before re-dispatch:
mime_type is set to text/html and the error template is rendered into the
body buffer with (status name, status description). -/
def lwan_default_response_pre (env : Env) (req : LwanRequest) (status : Nat) : LwanRequest :=
  { req with
    responseMimeType := some "text/html".toList
    responseBuffer := env.errorTemplateRender (env.statusAsString status)
      (env.statusAsDescriptiveString status) }

/-- lwan_response request status, with a fuel bound on the
lwan_response / lwan_default_response recursion (none on exhaustion or on
a NULL-dereferencing branch).  In source order: a request in chunked mode
resets the buffer and sends the final zero-sized chunk; if headers were
already sent the call is ignored; without a mime type it delegates to the
default error response; a registered stream callback is invoked once, the
callback field is cleared, and a default error response follows exactly
when the callback returned at least 400; otherwise headers are assembled
into a DEFAULT_HEADERS_SIZE buffer (assembly failure delegates to the
default 500 response) and sent, with the body for methods that carry
one. -/
def lwan_response_fuel (env : Env) : Nat → LwanRequest → Nat → Option (List Ev × LwanRequest)
  | 0, _, _ => none
  | fuel + 1, req, status =>
    if req.chunkedEncoding then
      lwan_response_send_chunk env { req with responseBuffer := [] }
    else if req.sentHeaders then some ([], req)
    else
      match req.responseMimeType with
      | none => lwan_response_fuel env fuel (lwan_default_response_pre env req status) status
      | some _ =>
        match req.responseStreamCallback with
        | some cbId =>
          let r := env.streamCallbacks cbId req
          let req2 := { r.2 with responseStreamCallback := none }
          if 400 ≤ r.1 then
            lwan_response_fuel env fuel (lwan_default_response_pre env req2 r.1) r.1
          else some ([], req2)
        | none =>
          match lwan_prepare_response_header env req status env.defaultHeadersSize with
          | .crash => none
          | .overflow _ =>
            lwan_response_fuel env fuel (lwan_default_response_pre env req 500) 500
          | .done len out =>
            if len = 0 then
              lwan_response_fuel env fuel (lwan_default_response_pre env req 500) 500
            else if has_response_body req.method then
              some ([.writev [out.take len, req.responseBuffer]], req)
            else some ([.send (out.take len) false], req)

/-- lwan_default_response request status (same fuel discipline). -/
def lwan_default_response_fuel (env : Env) (fuel : Nat) (req : LwanRequest) (status : Nat) :
    Option (List Ev × LwanRequest) :=
  lwan_response_fuel env fuel (lwan_default_response_pre env req status) status

/-- Claim C3: once chunked mode is selected (headers sent), send_chunk
with a non-empty body B writes exactly the three iovecs lowercase-hex(|B|)
CRLF, B, CRLF, clears the body buffer and yields CONN_CORO_MAY_RESUME
(|B| below 2 to the 64, the size_t range, keeps the chunk-size line
representable); with an empty body it sends exactly the terminator bytes
0 CRLF CRLF; and a subsequent lwan_response while CHUNKED is set resets
the buffer and sends that same terminator. -/
theorem send_chunk_framing :
    (∀ (env : Env) (req : LwanRequest),
        req.sentHeaders = true → req.responseBuffer ≠ [] →
        req.responseBuffer.length < 16 ^ 16 →
        lwan_response_send_chunk env req
          = some ([.writev [hexDigits req.responseBuffer.length ++ "\r\n".toList,
              req.responseBuffer, "\r\n".toList], .coroYield .mayResume],
            { req with responseBuffer := [] })) ∧
    (∀ (env : Env) (req : LwanRequest),
        req.sentHeaders = true → req.responseBuffer = [] →
        lwan_response_send_chunk env req = some ([.send "0\r\n\r\n".toList false], req)) ∧
    (∀ (env : Env) (fuel : Nat) (req : LwanRequest) (status : Nat),
        req.chunkedEncoding = true → req.sentHeaders = true →
        lwan_response_fuel env (fuel + 1) req status
          = some ([.send "0\r\n\r\n".toList false], { req with responseBuffer := [] })) := by
  refine ⟨?_, ?_, ?_⟩
  · intro env req hsent hne hlt
    have hlen : ¬ req.responseBuffer.length = 0 := by
      simpa [List.length_eq_zero] using hne
    have hhex : ¬ (26 ≤ (hexDigits req.responseBuffer.length ++ "\r\n".toList).length) := by
      have h16 := hexDigits_length_le_16 req.responseBuffer.length hlt
      have h2 : ("\r\n".toList : List Char).length = 2 := rfl
      simp only [List.length_append, h2]
      omega
    unfold lwan_response_send_chunk
    rw [if_pos hsent]
    unfold sendChunkBody
    rw [if_neg hlen]
    dsimp only
    rw [if_neg hhex]
    simp
  · intro env req hsent hbuf
    unfold lwan_response_send_chunk
    rw [if_pos hsent]
    unfold sendChunkBody
    rw [if_pos (by simp [hbuf])]
    simp
  · intro env fuel req status hc hsent
    rw [lwan_response_fuel, if_pos hc]
    unfold lwan_response_send_chunk
    rw [if_pos (by simpa using hsent)]
    unfold sendChunkBody
    rw [if_pos (by simp)]
    simp

theorem send_chunk_framing_witness :
    lwan_response_send_chunk envT
        { reqT with sentHeaders := true, responseBuffer := "A".toList }
      = some ([.writev [hexDigits ("A".toList).length ++ "\r\n".toList,
          "A".toList, "\r\n".toList], .coroYield .mayResume],
        { reqT with sentHeaders := true, responseBuffer := [] }) :=
  send_chunk_framing.1 envT { reqT with sentHeaders := true, responseBuffer := "A".toList }
    rfl (by decide) (by norm_num)

/-- Claim C7: in lwan_response, when control reaches the stream-callback
test (not chunked, headers not sent, mime type set) and a callback is
registered, the callback runs exactly once, the callback field is cleared
to NULL immediately afterwards — before any error path — and the default
error response is emitted exactly when the callback returned at least
400; the cleared field means the default-error path cannot re-enter the
callback. -/
theorem stream_callback_once_cleared (env : Env) (fuel : Nat) (req : LwanRequest)
    (status : Nat) (cbId : Nat) (m : List Char)
    (hc : req.chunkedEncoding = false) (hsent : req.sentHeaders = false)
    (hm : req.responseMimeType = some m) (hcb : req.responseStreamCallback = some cbId) :
    lwan_response_fuel env (fuel + 1) req status
      = (if 400 ≤ (env.streamCallbacks cbId req).1
         then lwan_default_response_fuel env fuel
           { (env.streamCallbacks cbId req).2 with responseStreamCallback := none }
           (env.streamCallbacks cbId req).1
         else some ([],
           { (env.streamCallbacks cbId req).2 with responseStreamCallback := none })) ∧
    ({ (env.streamCallbacks cbId req).2 with
        responseStreamCallback := none }).responseStreamCallback = none := by
  constructor
  · rw [lwan_response_fuel, if_neg (by simp [hc]), if_neg (by simp [hsent]), hm]
    dsimp only
    rw [hcb]
    dsimp only
    unfold lwan_default_response_fuel
    rfl
  · rfl

theorem stream_callback_once_cleared_witness :
    lwan_response_fuel envT (4 + 1) { reqT with responseStreamCallback := some 0 } 200
      = (if 400 ≤ (envT.streamCallbacks 0 { reqT with responseStreamCallback := some 0 }).1
         then lwan_default_response_fuel envT 4
           { (envT.streamCallbacks 0 { reqT with responseStreamCallback := some 0 }).2 with
              responseStreamCallback := none }
           (envT.streamCallbacks 0 { reqT with responseStreamCallback := some 0 }).1
         else some ([],
           { (envT.streamCallbacks 0 { reqT with responseStreamCallback := some 0 }).2 with
              responseStreamCallback := none })) :=
  (stream_callback_once_cleared envT 4 { reqT with responseStreamCallback := some 0 }
    200 0 "a".toList rfl rfl rfl rfl).1

/-- Claim C8: set_event_stream (headers not yet sent) sets the mime type
to text/event-stream and the NO_CONTENT_LENGTH flag on the request it
hands on; the header text it assembles for such a request carries
Content-Type: text/event-stream and no framing slot at all (no
Content-Length); a send_event with event name ping and body t=1 after the
headers are sent writes one writev whose six iovecs concatenate to
exactly event: ping CRLF data: t=1 CRLF CRLF, clears the buffer and
yields CONN_CORO_MAY_RESUME; and every frame is at most six iovecs. -/
theorem event_stream_frames :
    (∀ (env : Env) (req : LwanRequest) (status : Nat) (evs : List Ev) (r : LwanRequest)
        (b : Bool),
        req.sentHeaders = false →
        lwan_response_set_event_stream env req status = some (evs, r, b) →
        r.responseMimeType = some "text/event-stream".toList ∧ r.noContentLength = true) ∧
    (∀ (env : Env) (req : LwanRequest) (status : Nat) (add : Option (List KeyValue))
        (u : List Char) (dOv eOv : Bool),
        req.responseMimeType = some "text/event-stream".toList →
        req.noContentLength = true → req.chunkedEncoding = false →
        userPartSpec status add = some (u, dOv, eOv) →
        headerText env req status add
          = some (statusLinePart env req status ++ "\r\nContent-Type: text/event-stream".toList
            ++ connectionPart req ++ u ++ tailPartSpec req dOv eOv)) ∧
    (∀ (env : Env) (req : LwanRequest),
        req.sentHeaders = true → req.responseBuffer = "t=1".toList →
        lwan_response_send_event env req (some "ping".toList)
          = some ([.writev ["event: ".toList, "ping".toList, "\r\n".toList,
              "data: ".toList, "t=1".toList, "\r\n\r\n".toList], .coroYield .mayResume],
            { req with responseBuffer := [] }) ∧
        "event: ".toList ++ "ping".toList ++ "\r\n".toList ++ "data: ".toList
          ++ "t=1".toList ++ "\r\n\r\n".toList = "event: ping\r\ndata: t=1\r\n\r\n".toList) ∧
    (∀ (event : Option (List Char)) (buffer : List Char),
        (sendEventVecs event buffer).length ≤ 6) := by
  refine ⟨?_, ?_, ?_, ?_⟩
  · intro env req status evs r b hsent h
    unfold lwan_response_set_event_stream at h
    rw [if_neg (by simp [hsent])] at h
    dsimp only at h
    split at h
    · exact absurd h (by simp)
    · simp only [Option.some.injEq, Prod.mk.injEq] at h
      obtain ⟨h1, h2, h3⟩ := h
      subst h2
      constructor <;> rfl
    · split at h
      · simp only [Option.some.injEq, Prod.mk.injEq] at h
        obtain ⟨h1, h2, h3⟩ := h
        subst h2
        constructor <;> rfl
      · simp only [Option.some.injEq, Prod.mk.injEq] at h
        obtain ⟨h1, h2, h3⟩ := h
        subst h2
        constructor <;> rfl
  · intro env req status add u dOv eOv hm hn hcz hu
    have hfr : framingPart req = [] := by
      rw [framingPart, if_neg (by simp [hcz]), if_pos hn]
    unfold headerText
    rw [hm, hu]
    dsimp only
    rw [hfr]
    have hmerge : ("\r\nContent-Type: ".toList ++ "text/event-stream".toList : List Char)
        = "\r\nContent-Type: text/event-stream".toList := by decide
    simp only [List.append_nil, List.nil_append, Option.some.injEq]
    rw [← hmerge]
    simp [List.append_assoc]
  · intro env req hsent hbuf
    unfold lwan_response_send_event
    rw [if_pos hsent, hbuf]
    constructor
    · have : sendEventVecs (some "ping".toList) "t=1".toList
          = ["event: ".toList, "ping".toList, "\r\n".toList,
             "data: ".toList, "t=1".toList, "\r\n\r\n".toList] := by decide
      rw [this]
    · decide
  · intro event buffer
    cases event <;> by_cases hb : buffer.length = 0 <;>
      simp [sendEventVecs, hb]

theorem event_stream_frames_witness :
    lwan_response_send_event envT
        { reqT with sentHeaders := true, responseBuffer := "t=1".toList }
        (some "ping".toList)
      = some ([.writev ["event: ".toList, "ping".toList, "\r\n".toList,
          "data: ".toList, "t=1".toList, "\r\n\r\n".toList], .coroYield .mayResume],
        { reqT with sentHeaders := true, responseBuffer := [] }) :=
  (event_stream_frames.2.2.1 envT
    { reqT with sentHeaders := true, responseBuffer := "t=1".toList } rfl rfl).1
